import Mathlib

/-!
Verification of the CUDA neural-network layer subsystem declared in
`src/neural/cuda/layers.h` (Leela Chess Zero CUDA backend).

The header gives the data model (layer classes, their construction-time
shape parameters and feature flags, and the shared `GetOutputSize`
formula). Kernel bodies live outside the provided sources; where a claim
depends on them, the corresponding definition is modelled from the spec
and marked as such in its doc comment. Numeric tensors are embedded over
the exact rationals.
-/

namespace LC0

/-- The two element types a layer template can be instantiated at:
32-bit and 16-bit floating point. -/
inductive DataType
| fp32
| fp16
deriving DecidableEq

/-- Value of `sizeof(DataType)` in bytes: 4 for fp32, 2 for fp16 (half). -/
def DataType.byteSize : DataType → Nat
| .fp32 => 4
| .fp16 => 2

/-- The state of `BaseLayer<DataType>` relevant to shape queries:
output tensor dimensions `C`, `H`, `W`, the tensor-layout flag `nhwc_`,
and the element type the template was instantiated at. -/
structure BaseLayer where
  C : Nat
  H : Nat
  W : Nat
  nhwc : Bool
  dtype : DataType

/-- Member `BaseLayer::GetC`. -/
def BaseLayer.GetC (l : BaseLayer) : Nat := l.C

/-- Member `BaseLayer::GetH`. -/
def BaseLayer.GetH (l : BaseLayer) : Nat := l.H

/-- Member `BaseLayer::GetW`. -/
def BaseLayer.GetW (l : BaseLayer) : Nat := l.W

/-- Member `BaseLayer::GetOutputSize(N)`, verbatim from the header:
`sizeof(DataType) * N * C * H * W`. -/
def BaseLayer.GetOutputSize (l : BaseLayer) (N : Nat) : Nat :=
  l.dtype.byteSize * N * l.C * l.H * l.W

/-- The concrete layer classes deriving from `BaseLayer` in the header.
`GetOutputSize` is a non-virtual member of the base class, so every
derived layer computes its output size by the same formula. -/
inductive LayerKind
| conv
| softMax
| fc
| policyMap
| se
| fusedWinogradConvSE
| conv1
| residualBlock
deriving DecidableEq

/-- A layer of any of the derived classes together with its inherited
`BaseLayer` state. -/
structure Layer where
  kind : LayerKind
  base : BaseLayer

/-- A derived layer's `GetOutputSize(N)` is the inherited base-class
member. -/
def Layer.GetOutputSize (l : Layer) (N : Nat) : Nat :=
  l.base.GetOutputSize N

/-- C1: For every layer type and every batch size N, `GetOutputSize(N)`
returns exactly `N * C * H * W * sizeof(element)`, where `(C, H, W)` is
the layer's declared output shape fixed at construction and `element` is
the layer's data type. -/
theorem getOutputSize_exact (l : Layer) (N : Nat) :
    l.GetOutputSize N = N * l.base.C * l.base.H * l.base.W * l.base.dtype.byteSize := by
  simp only [Layer.GetOutputSize, BaseLayer.GetOutputSize]
  ring

/-- C10: the function `GetOutputSize` depends only on the batch size and the shape
fixed at construction: it is unchanged by the tensor-layout flag
(NCHW vs NHWC), it returns 0 for N = 0, and it is additive in the batch
size. -/
theorem getOutputSize_shape_only (k : LayerKind) (c h w : Nat) (d : DataType)
    (layout1 layout2 : Bool) (N N1 N2 : Nat) :
    Layer.GetOutputSize ⟨k, c, h, w, layout1, d⟩ N
        = Layer.GetOutputSize ⟨k, c, h, w, layout2, d⟩ N
    ∧ Layer.GetOutputSize ⟨k, c, h, w, layout1, d⟩ 0 = 0
    ∧ Layer.GetOutputSize ⟨k, c, h, w, layout1, d⟩ (N1 + N2)
        = Layer.GetOutputSize ⟨k, c, h, w, layout1, d⟩ N1
          + Layer.GetOutputSize ⟨k, c, h, w, layout1, d⟩ N2 := by
  refine ⟨rfl, ?_, ?_⟩
  · simp [Layer.GetOutputSize, BaseLayer.GetOutputSize]
  · simp only [Layer.GetOutputSize, BaseLayer.GetOutputSize]
    ring

/-! ### Fused Winograd convolution (C2, C7)

Modelled from the spec: the kernel bodies of `FusedWinogradConvSELayer`
are not among the provided sources (the header only declares
`LoadWeights` and `Eval`). The spec describes the algorithm as the
Winograd minimal-filtering convolution: (1) transform input tiles into
the Winograd domain, (2) multiply against pre-transformed weights,
(3) inverse-transform back, fusing the epilogue. We model the standard
F(2x2, 3x3) instance of that algorithm over exact rationals, with the
classical transform matrices `Bt` (input), `G` (filter) and `At`
(inverse/output) written entrywise, the way the kernels hardcode them.
Tiles are functions from (row, column) indices; only indices below the
tile size are relevant. -/

/-- Multiplication of a length-4 vector by the Winograd F(2x2,3x3)
input-transform matrix `Bt`. -/
def btMul (v : Nat → ℚ) : Nat → ℚ := fun i =>
  if i = 0 then v 0 - v 2
  else if i = 1 then v 1 + v 2
  else if i = 2 then v 2 - v 1
  else if i = 3 then v 1 - v 3
  else 0

/-- Multiplication of a length-3 vector by the Winograd F(2x2,3x3)
filter-transform matrix `G`. -/
def gMul (v : Nat → ℚ) : Nat → ℚ := fun i =>
  if i = 0 then v 0
  else if i = 1 then (v 0 + v 1 + v 2) / 2
  else if i = 2 then (v 0 - v 1 + v 2) / 2
  else if i = 3 then v 2
  else 0

/-- Multiplication of a length-4 vector by the Winograd F(2x2,3x3)
output (inverse) transform matrix `At`. -/
def atMul (v : Nat → ℚ) : Nat → ℚ := fun i =>
  if i = 0 then v 0 + v 1 + v 2
  else if i = 1 then v 1 - v 2 - v 3
  else 0

/-- The filter transform `G g Gt` performed on a 3x3 filter at
`LoadWeights` time (the pre-transformed weights the layer stores). -/
def transformedFilter (g : Nat → Nat → ℚ) : Nat → Nat → ℚ := fun i j =>
  gMul (fun k => gMul (g k) j) i

/-- The input-tile transform `Bt d B` performed per evaluation on a 4x4
input tile. -/
def transformedInput (d : Nat → Nat → ℚ) : Nat → Nat → ℚ := fun i j =>
  btMul (fun k => btMul (d k) j) i

/-- One tile of the fused Winograd convolution path: elementwise product
of the transformed input tile with the pre-transformed filter, then the
inverse transform `At M A`, yielding the 2x2 output tile. -/
def winogradConvTile (d g : Nat → Nat → ℚ) : Nat → Nat → ℚ := fun i j =>
  atMul (fun k => atMul (fun l => transformedFilter g k l * transformedInput d k l) j) i

/-- The reference direct (non-fused) 3x3 convolution on the same 4x4
input tile: plain sliding inner product, producing the same 2x2 output
tile. -/
def directConvTile (d g : Nat → Nat → ℚ) : Nat → Nat → ℚ := fun i j =>
  ∑ p ∈ Finset.range 3, ∑ q ∈ Finset.range 3, d (i + p) (j + q) * g p q

/-- One tile of Winograd equals the direct convolution, exactly. -/
theorem winogradConvTile_eq_directConvTile (d g : Nat → Nat → ℚ) (i j : Fin 2) :
    winogradConvTile d g i.1 j.1 = directConvTile d g i.1 j.1 := by
  fin_cases i <;> fin_cases j <;>
    · simp only [winogradConvTile, directConvTile, transformedFilter, transformedInput,
        atMul, btMul, gMul, Finset.sum_range_succ, Finset.sum_range_zero]
      norm_num
      ring

/-- C2: the fused Winograd convolution path produces the same result as
a reference direct convolution on identical weights and inputs — here
over exact arithmetic, where the agreement is exact (hence within any
numeric tolerance, the looser 16-bit one included), both per input
channel and after the accumulation over input channels that a
multi-channel convolution layer performs. -/
theorem winograd_eq_direct (cin : Nat) (d g : Nat → Nat → Nat → ℚ) (i j : Fin 2) :
    (∀ c, winogradConvTile (d c) (g c) i.1 j.1 = directConvTile (d c) (g c) i.1 j.1)
    ∧ (∑ c ∈ Finset.range cin, winogradConvTile (d c) (g c) i.1 j.1)
        = ∑ c ∈ Finset.range cin, directConvTile (d c) (g c) i.1 j.1 := by
  refine ⟨fun c => winogradConvTile_eq_directConvTile (d c) (g c) i j, ?_⟩
  exact Finset.sum_congr rfl fun c _ =>
    winogradConvTile_eq_directConvTile (d c) (g c) i j

/-! ### Squeeze-Excitation layer (C3)

Modelled from the spec: the body of `SELayer::Eval` is not among the
provided sources. Per the header comment and the spec, the fused SE unit
computes: (optional previous-layer bias add) → global average pool over
spatial positions → FC1 with nonlinearity → FC2 producing two gate
vectors (scale, shift) of length C → per-channel affine transform of the
(bias-corrected) input → add skip connection → final activation.
Tensors are `channel → spatialPosition → ℚ`; the gate-squashing function
is an explicit parameter. -/

/-- Rational ReLU. -/
def reluQ (x : ℚ) : ℚ := max x 0

/-- The weights an `SELayer` owns after `LoadWeights`: FC1 weights/bias
(`w1`, `b1`), FC2 weights/bias (`w2`, `b2`, producing `2*C` outputs),
together with the channel count `C`, the spatial size `hw = H*W` and the
hidden size `numFc1Out`. -/
structure SEWeights where
  C : Nat
  hw : Nat
  numFc1Out : Nat
  w1 : Nat → Nat → ℚ
  b1 : Nat → ℚ
  w2 : Nat → Nat → ℚ
  b2 : Nat → ℚ

/-- The SE unit's view of its input: the raw input plus, when
`addPrevLayerBias` is set, the deferred per-channel bias of the
preceding convolution. -/
def seBiased (addPrevLayerBias : Bool) (bPrev : Nat → ℚ)
    (input : Nat → Nat → ℚ) : Nat → Nat → ℚ := fun c s =>
  input c s + (if addPrevLayerBias then bPrev c else 0)

/-- Global average pooling over the spatial positions of one channel. -/
def sePooled (p : SEWeights) (y : Nat → Nat → ℚ) (c : Nat) : ℚ :=
  (∑ s ∈ Finset.range p.hw, y c s) / p.hw

/-- First fully-connected layer of the SE unit, with ReLU. -/
def seFc1 (p : SEWeights) (pooled : Nat → ℚ) (i : Nat) : ℚ :=
  reluQ ((∑ c ∈ Finset.range p.C, p.w1 i c * pooled c) + p.b1 i)

/-- Second fully-connected layer of the SE unit; rows `0..C-1` are the
scale gates and rows `C..2C-1` the shift gates. -/
def seGate (p : SEWeights) (fc1 : Nat → ℚ) (k : Nat) : ℚ :=
  (∑ i ∈ Finset.range p.numFc1Out, p.w2 k i * fc1 i) + p.b2 k

/-- Evaluation `SELayer::Eval`: bias-correct the input, pool, run the two FC
layers, then per channel apply `squash(scale) * y + shift`, add the skip
tensor, and apply the final ReLU. `squash` is the gate-squashing
function. -/
def seEval (squash : ℚ → ℚ) (p : SEWeights) (addPrevLayerBias : Bool)
    (bPrev : Nat → ℚ) (input skip : Nat → Nat → ℚ) : Nat → Nat → ℚ := fun c s =>
  let y := seBiased addPrevLayerBias bPrev input
  let fc1 := seFc1 p (sePooled p y)
  reluQ (squash (seGate p fc1 c) * y c s + seGate p fc1 (p.C + c) + skip c s)

/-- Bias folding: the SE unit's biased view of `input` is exactly the
unbiased view of `input` with the bias pre-added. -/
theorem seBiased_fold (bPrev : Nat → ℚ) (input : Nat → Nat → ℚ) :
    seBiased true bPrev input = seBiased false bPrev (fun c s => input c s + bPrev c) := by
  funext c s
  simp [seBiased]

/-- C3: an SELayer with `addPrevLayerBias = true` given the previous
layer's bias produces output identical to the same SELayer with
`addPrevLayerBias = false` evaluated on the input with that bias already
applied by the preceding convolution: the placement of the bias addition
is observationally invisible. -/
theorem se_bias_placement_invisible (squash : ℚ → ℚ) (p : SEWeights)
    (bPrev : Nat → ℚ) (input skip : Nat → Nat → ℚ) :
    seEval squash p true bPrev input skip
      = seEval squash p false bPrev (fun c s => input c s + bPrev c) skip := by
  funext c s
  simp only [seEval, seBiased_fold]

/-! ### Residual block (C4)

Modelled from the spec: the body of `ResidualBlock::Eval` is not among
the provided sources. Per the spec, the block composes two fused
convolutions around a skip connection; the `first` flag controls whether
the block consumes the initial network input directly (skip taken from
`input`) or a previously produced skip tensor supplied via `input2`.
The two internal convolutions are abstracted as tensor transformers. -/

/-- Evaluation `ResidualBlock::Eval`: apply the first convolution to the primary
input, apply the second convolution, add the skip tensor — the primary
input itself when `first_block_` is set, otherwise the `input2`
argument — and apply the final activation. -/
def resBlockEval (first_block : Bool)
    (conv0 conv1 : (Nat → Nat → ℚ) → Nat → Nat → ℚ)
    (input input2 : Nat → Nat → ℚ) : Nat → Nat → ℚ := fun c s =>
  let skip := if first_block then input else input2
  reluQ (conv1 (conv0 input) c s + skip c s)

/-- C4: a ResidualBlock with `first = true` computes its result from the
primary input alone — its output is the same for any two values of
`input2` — while with `first = false` the output genuinely depends on
the skip tensor supplied via `input2` (witnessed by two values of
`input2` yielding different outputs). -/
theorem resBlock_first_ignores_input2 :
    (∀ (conv0 conv1 : (Nat → Nat → ℚ) → Nat → Nat → ℚ)
        (input input2a input2b : Nat → Nat → ℚ),
      resBlockEval true conv0 conv1 input input2a
        = resBlockEval true conv0 conv1 input input2b)
    ∧ (∃ (conv0 conv1 : (Nat → Nat → ℚ) → Nat → Nat → ℚ)
          (input input2a input2b : Nat → Nat → ℚ),
        resBlockEval false conv0 conv1 input input2a
          ≠ resBlockEval false conv0 conv1 input input2b) := by
  constructor
  · intro conv0 conv1 input input2a input2b
    funext c s
    simp [resBlockEval]
  · refine ⟨fun _ _ _ => 0, fun _ _ _ => 0, fun _ _ => 0, fun _ _ => 0, fun _ _ => 1, ?_⟩
    intro h
    have h0 := congrFun (congrFun h 0) 0
    norm_num [resBlockEval, reluQ] at h0

/-! ### Policy-map layer (C5)

Modelled from the spec: the body of `PolicyMapLayer::Eval` is not among
the provided sources. Per the spec, the layer performs a fixed
gather/permutation from a padded intermediate representation to the
policy-output index space using a precomputed index table: logical input
entry `i < used_size_` with a non-negative table entry `table i` feeds
output slot `table i`; output slots fed by no table entry are zero. -/

/-- Evaluation `PolicyMapLayer::Eval` (functional form): output slot `j` receives
the input entry whose table entry maps to `j`, searching only the
`usedSize` logical entries; slots no entry maps to are zero. -/
def policyMapEval (table : Nat → Int) (usedSize : Nat) (input : Nat → ℚ) :
    Nat → ℚ := fun j =>
  match (List.range usedSize).find? (fun i => table i == (j : Int)) with
  | some i => input i
  | none => 0

/-- C5: on a zero-filled input the policy-map layer writes zero into
every output slot, and its output depends only on the first `usedSize`
logical entries of the input — it never reads beyond them, whatever
value the internal bookkeeping later stores in `used_size_`. -/
theorem policyMap_zero_and_reads_bounded (table : Nat → Int) (usedSize : Nat)
    (in1 in2 : Nat → ℚ) (hagree : ∀ i, i < usedSize → in1 i = in2 i) :
    (∀ j, policyMapEval table usedSize (fun _ => 0) j = 0)
    ∧ policyMapEval table usedSize in1 = policyMapEval table usedSize in2 := by
  constructor
  · intro j
    unfold policyMapEval
    cases h : (List.range usedSize).find? (fun i => table i == (j : Int)) <;> simp [h]
  · funext j
    unfold policyMapEval
    cases h : (List.range usedSize).find? (fun i => table i == (j : Int)) with
    | none => simp [h]
    | some i =>
      simp only [h]
      have hmem : i ∈ List.range usedSize := List.mem_of_find?_eq_some h
      exact hagree i (List.mem_range.mp hmem)

/-- Concrete instance of the policy-map theorem: a two-entry table on
inputs that agree on the two logical entries but differ beyond them. -/
theorem policyMap_zero_and_reads_bounded_witness :
    (∀ j, policyMapEval (fun i => if i = 0 then 5 else -1) 2 (fun _ => 0) j = 0)
    ∧ policyMapEval (fun i => if i = 0 then 5 else -1) 2 (fun _ => 3)
        = policyMapEval (fun i => if i = 0 then 5 else -1) 2
            (fun i => if i < 2 then 3 else 7) :=
  policyMap_zero_and_reads_bounded (fun i => if i = 0 then 5 else -1) 2
    (fun _ => 3) (fun i => if i < 2 then 3 else 7)
    (by intro i hi; interval_cases i <;> norm_num)

/-! ### The `use_gemm_ex` matrix-multiply switch (C6)

Modelled from the spec: the body of `cublasRowMajorMatrixMul` (shared by
`FusedWinogradConvSELayer`, `Conv1Layer` and `ResidualBlock`) is not
among the provided sources. Per the spec, `use_gemm_ex` selects between
two vendor matrix-multiply entry points computing the same row-major
matrix product; we model the two paths as two distinct computations of
that product (a left-fold accumulation and a finite sum). -/

/-- Dot-product accumulation as the `cublasGemmEx` path computes one
output element: a running accumulation over the inner dimension. -/
def gemmExDot (A B : Nat → Nat → ℚ) (i j : Nat) : Nat → ℚ
| 0 => 0
| k + 1 => gemmExDot A B i j k + A i k * B k j

/-- One output element of the `cublasSgemm`/`cublasHgemm` path: the
inner-product sum over the inner dimension. -/
def sgemmDot (A B : Nat → Nat → ℚ) (K i j : Nat) : ℚ :=
  ∑ k ∈ Finset.range K, A i k * B k j

/-- Member `cublasRowMajorMatrixMul`: the `use_gemm_ex_` flag selects which of
the two matrix-multiply code paths computes the product. -/
def cublasRowMajorMatrixMul (useGemmEx : Bool) (A B : Nat → Nat → ℚ)
    (K i j : Nat) : ℚ :=
  if useGemmEx then gemmExDot A B i j K else sgemmDot A B K i j

/-- C6: for every pair of matrices and every output element, the
`use_gemm_ex = true` path and the `use_gemm_ex = false` path of
`cublasRowMajorMatrixMul` return the identical value: the flag is a
performance switch, not a semantic one. -/
theorem use_gemm_ex_is_semantically_invisible (A B : Nat → Nat → ℚ)
    (K i j : Nat) :
    cublasRowMajorMatrixMul true A B K i j
      = cublasRowMajorMatrixMul false A B K i j := by
  have key : ∀ n, gemmExDot A B i j n = sgemmDot A B n i j := by
    intro n
    induction n with
    | zero => simp [gemmExDot, sgemmDot]
    | succ k ih => rw [gemmExDot, ih]; simp [sgemmDot, Finset.sum_range_succ]
  simp [cublasRowMajorMatrixMul, key]

/-! ### Fully-connected layer activation selectors (C9)

Modelled from the spec: the body of `FCLayer::Eval` is not among the
provided sources. Per the spec, the FC layer computes an affine
transform followed by an optional activation chosen by the mutually
exclusive selectors `use_relu_`, `use_tanh_`, `use_sigmoid_`. The tanh
and sigmoid functions are abstract parameters of the model. -/

/-- The affine transform of `FCLayer::Eval`: weights times input plus
optional bias, for output coordinate `i`. -/
def fcAffine (weights : Nat → Nat → ℚ) (biases : Nat → ℚ) (use_bias : Bool)
    (cin : Nat) (x : Nat → ℚ) (i : Nat) : ℚ :=
  (∑ k ∈ Finset.range cin, weights i k * x k) + (if use_bias then biases i else 0)

/-- The activation selected by the `FCLayer` flags: ReLU, tanh, sigmoid
or the identity when no selector is set. -/
def fcActivation (use_relu use_tanh use_sigmoid : Bool)
    (tanhF sigmoidF : ℚ → ℚ) : ℚ → ℚ :=
  if use_relu then reluQ
  else if use_tanh then tanhF
  else if use_sigmoid then sigmoidF
  else id

/-- Member `FCLayer::Eval` at output coordinate `i`: the affine transform
followed by the selected activation. -/
def fcEval (use_relu use_tanh use_sigmoid use_bias : Bool)
    (tanhF sigmoidF : ℚ → ℚ) (weights : Nat → Nat → ℚ) (biases : Nat → ℚ)
    (cin : Nat) (x : Nat → ℚ) (i : Nat) : ℚ :=
  fcActivation use_relu use_tanh use_sigmoid tanhF sigmoidF
    (fcAffine weights biases use_bias cin x i)

/-- C9: for every constructed FCLayer — every combination of the three
selector flags — there is a single function `f`, drawn from
the set of identity, ReLU, tanh and sigmoid, such that the layer's evaluation is
exactly the affine transform followed by `f`: the selectors are mutually
exclusive and at most one nonlinearity follows the affine transform. -/
theorem fc_activations_mutually_exclusive (use_relu use_tanh use_sigmoid : Bool)
    (tanhF sigmoidF : ℚ → ℚ) :
    ∃ f : ℚ → ℚ,
      (f = id ∨ f = reluQ ∨ f = tanhF ∨ f = sigmoidF)
      ∧ ∀ (use_bias : Bool) (weights : Nat → Nat → ℚ) (biases : Nat → ℚ)
          (cin : Nat) (x : Nat → ℚ) (i : Nat),
          fcEval use_relu use_tanh use_sigmoid use_bias tanhF sigmoidF
              weights biases cin x i
            = f (fcAffine weights biases use_bias cin x i) := by
  cases use_relu
  · cases use_tanh
    · cases use_sigmoid
      · exact ⟨id, Or.inl rfl, fun _ _ _ _ _ _ => rfl⟩
      · exact ⟨sigmoidF, Or.inr (Or.inr (Or.inr rfl)), fun _ _ _ _ _ _ => rfl⟩
    · exact ⟨tanhF, Or.inr (Or.inr (Or.inl rfl)), fun _ _ _ _ _ _ => rfl⟩
  · exact ⟨reluQ, Or.inr (Or.inl rfl), fun _ _ _ _ _ _ => rfl⟩

/-! ### Weight immutability and load-time transform (C7)

Modelled from the spec: the `LoadWeights*` and `Eval` bodies of every
layer class are absent from the provided sources; the header declares
which device tensors each class owns. Per the spec, the `LoadWeights*`
entry points fill (and pre-transform) those tensors once, and `Eval`
only reads them. State threading is explicit: every `Eval` returns its
output together with the owned state it leaves behind. `SoftMaxLayer`
owns no weight tensors, so the claim is vacuous for it. -/

/-- The owned device tensors of `FusedWinogradConvSELayer`
(layers.h:246-253): the bias vector, the Winograd-pre-transformed
weights (indexed by output channel, input channel, tile row, tile
column), and the SE weight tensors `w1_`, `b1_`, `w2_`, `b2_`. -/
structure FusedConvState where
  transformedWeights : Nat → Nat → Nat → Nat → ℚ
  biases : Nat → ℚ
  w1 : Nat → Nat → ℚ
  b1 : Nat → ℚ
  w2 : Nat → Nat → ℚ
  b2 : Nat → ℚ

/-- Member `FusedWinogradConvSELayer::LoadWeights`: transform the host
filter once with the Winograd filter transform and store the result and
the biases; the SE tensors are untouched. -/
def fusedLoadWeights (st : FusedConvState)
    (pfilter : Nat → Nat → Nat → Nat → ℚ) (pBias : Nat → ℚ) : FusedConvState :=
  { st with
    transformedWeights := fun co ci => transformedFilter (pfilter co ci),
    biases := pBias }

/-- Member `FusedWinogradConvSELayer::LoadSEWeights`: store the four SE
weight tensors; the convolution tensors are untouched. -/
def fusedLoadSEWeights (st : FusedConvState) (w1 : Nat → Nat → ℚ)
    (b1 : Nat → ℚ) (w2 : Nat → Nat → ℚ) (b2 : Nat → ℚ) : FusedConvState :=
  { st with w1 := w1, b1 := b1, w2 := w2, b2 := b2 }

/-- A convolution pass computed from stored pre-transformed weights:
each output position is the Winograd tile product of the stored filter
tiles with the transformed input window anchored at that position,
summed over input channels, plus the stored bias (the "same"-padding
window bookkeeping is abstracted into the row-major window view). -/
def stConv (tw : Nat → Nat → Nat → Nat → ℚ) (bias : Nat → ℚ) (cin : Nat)
    (x : Nat → Nat → ℚ) : Nat → Nat → ℚ := fun co s =>
  (∑ ci ∈ Finset.range cin,
    atMul (fun k => atMul
      (fun l => tw co ci k l
        * transformedInput (fun r c => x ci (s + 4 * r + c)) k l) 0) 0)
  + bias co

/-- Member `FusedWinogradConvSELayer::Eval` with explicit state
threading: run the Winograd convolution from the stored transformed
weights and biases, then either the fused SE epilogue (reading the
stored SE tensors) or the plain skip-add/ReLU epilogue; return the
output and the owned state left behind. -/
def fusedEval (has_se : Bool) (squash : ℚ → ℚ) (C hw numFc1Out cin : Nat)
    (st : FusedConvState) (input skip : Nat → Nat → ℚ) :
    (Nat → Nat → ℚ) × FusedConvState :=
  let conv := stConv st.transformedWeights st.biases cin input
  (if has_se then
      seEval squash ⟨C, hw, numFc1Out, st.w1, st.b1, st.w2, st.b2⟩ false
        (fun _ => 0) conv skip
    else fun c s => reluQ (conv c s + skip c s), st)

/-- A sequence of `Eval` calls on a `FusedWinogradConvSELayer`,
threading the owned state through. -/
def fusedEvalMany (has_se : Bool) (squash : ℚ → ℚ) (C hw numFc1Out cin : Nat)
    (st : FusedConvState) (xs : List ((Nat → Nat → ℚ) × (Nat → Nat → ℚ))) :
    FusedConvState :=
  xs.foldl (fun s x => (fusedEval has_se squash C hw numFc1Out cin s x.1 x.2).2) st

/-- Folding any list of evaluations over an owned state leaves it
unchanged. -/
theorem fusedEvalMany_id (has_se : Bool) (squash : ℚ → ℚ)
    (C hw numFc1Out cin : Nat) (xs : List ((Nat → Nat → ℚ) × (Nat → Nat → ℚ)))
    (st : FusedConvState) :
    fusedEvalMany has_se squash C hw numFc1Out cin st xs = st := by
  induction xs generalizing st with
  | nil => rfl
  | cons x xs ih => exact ih st

/-- The owned device tensors of `FCLayer` (layers.h:156-157). -/
structure FCState where
  weights : Nat → Nat → ℚ
  biases : Nat → ℚ

/-- Member `FCLayer::LoadWeights`. -/
def fcLoadWeights (st : FCState) (cpuWeight : Nat → Nat → ℚ)
    (cpuBias : Nat → ℚ) : FCState :=
  { st with weights := cpuWeight, biases := cpuBias }

/-- Member `FCLayer::Eval` with explicit state threading: the affine
transform plus selected activation of `fcEval`, reading the stored
weights and biases. -/
def fcEvalS (use_relu use_tanh use_sigmoid use_bias : Bool)
    (tanhF sigmoidF : ℚ → ℚ) (st : FCState) (cin : Nat) (x : Nat → ℚ) :
    (Nat → ℚ) × FCState :=
  (fun i => fcEval use_relu use_tanh use_sigmoid use_bias tanhF sigmoidF
      st.weights st.biases cin x i, st)

/-- The owned state of `PolicyMapLayer` (layers.h:174-177): the index
table together with the mutable `used_size_` bookkeeping field. -/
structure PolicyMapState where
  weights : Nat → Int
  used_size : Nat

/-- Member `PolicyMapLayer::LoadWeights`: store the (possibly
layout-converted) index table; on the reduced-precision path the
bookkeeping field is overwritten with the padded count at the same
time, so the stored size is a load-time argument here. -/
def policyMapLoadWeights (st : PolicyMapState) (cpuWeight : Nat → Int)
    (newUsedSize : Nat) : PolicyMapState :=
  { st with weights := cpuWeight, used_size := newUsedSize }

/-- Member `PolicyMapLayer::Eval` with explicit state threading: the
gather of `policyMapEval` driven by the stored table and stored size. -/
def policyMapEvalS (st : PolicyMapState) (input : Nat → ℚ) :
    (Nat → ℚ) × PolicyMapState :=
  (policyMapEval st.weights st.used_size input, st)

/-- The owned device tensors of `SELayer` (layers.h:201-207), including
the transposed copies `w1_t_`, `w2_t_` used by the fused SE kernel and
the deferred previous-layer bias `bPrev_`. -/
structure SELayerState where
  w1 : Nat → Nat → ℚ
  w1t : Nat → Nat → ℚ
  b1 : Nat → ℚ
  w2 : Nat → Nat → ℚ
  w2t : Nat → Nat → ℚ
  b2 : Nat → ℚ
  bPrev : Nat → ℚ

/-- Member `SELayer::LoadWeights`: store the FC tensors, compute their
transposed copies once, and store the previous-layer bias. -/
def seLoadWeights (st : SELayerState) (w1 : Nat → Nat → ℚ) (b1 : Nat → ℚ)
    (w2 : Nat → Nat → ℚ) (b2 : Nat → ℚ) (prevLayerBias : Nat → ℚ) :
    SELayerState :=
  { st with
    w1 := w1, w1t := fun i j => w1 j i, b1 := b1,
    w2 := w2, w2t := fun i j => w2 j i, b2 := b2, bPrev := prevLayerBias }

/-- Member `SELayer::Eval` with explicit state threading: the SE unit of
`seEval` reading the stored tensors. -/
def seEvalS (squash : ℚ → ℚ) (C hw numFc1Out : Nat) (addPrevLayerBias : Bool)
    (st : SELayerState) (input skip : Nat → Nat → ℚ) :
    (Nat → Nat → ℚ) × SELayerState :=
  (seEval squash ⟨C, hw, numFc1Out, st.w1, st.b1, st.w2, st.b2⟩
    addPrevLayerBias st.bPrev input skip, st)

/-- The owned device tensors of `Conv1Layer` (layers.h:287-288). -/
structure Conv1State where
  weights : Nat → Nat → ℚ
  biases : Nat → ℚ

/-- Member `Conv1Layer::LoadWeights`. -/
def conv1LoadWeights (st : Conv1State) (pfilter : Nat → Nat → ℚ)
    (pBias : Nat → ℚ) : Conv1State :=
  { st with weights := pfilter, biases := pBias }

/-- Member `Conv1Layer::Eval` with explicit state threading: the 1x1
convolution as the matrix product of the stored weights with the input
through `cublasRowMajorMatrixMul`, plus optional bias and ReLU. -/
def conv1EvalS (useGemmEx use_relu use_bias : Bool) (st : Conv1State)
    (cin : Nat) (x : Nat → Nat → ℚ) : (Nat → Nat → ℚ) × Conv1State :=
  ((fun c s =>
    let v := cublasRowMajorMatrixMul useGemmEx st.weights x cin c s
      + (if use_bias then st.biases c else 0)
    if use_relu then reluQ v else v), st)

/-- The owned device tensors of `ResidualBlock` (layers.h:325-334): the
two Winograd-pre-transformed filter sets, the two bias vectors, and the
SE weight tensors. -/
structure ResidualBlockState where
  transformedWeights0 : Nat → Nat → Nat → Nat → ℚ
  transformedWeights1 : Nat → Nat → Nat → Nat → ℚ
  biases0 : Nat → ℚ
  biases1 : Nat → ℚ
  w1 : Nat → Nat → ℚ
  b1 : Nat → ℚ
  w2 : Nat → Nat → ℚ
  b2 : Nat → ℚ

/-- Member `ResidualBlock::LoadWeights0`: Winograd-transform and store
the first convolution filter and bias; everything else untouched. -/
def resLoadWeights0 (st : ResidualBlockState)
    (pfilter : Nat → Nat → Nat → Nat → ℚ) (pBias : Nat → ℚ) :
    ResidualBlockState :=
  { st with
    transformedWeights0 := fun co ci => transformedFilter (pfilter co ci),
    biases0 := pBias }

/-- Member `ResidualBlock::LoadWeights1`: likewise for the second
convolution. -/
def resLoadWeights1 (st : ResidualBlockState)
    (pfilter : Nat → Nat → Nat → Nat → ℚ) (pBias : Nat → ℚ) :
    ResidualBlockState :=
  { st with
    transformedWeights1 := fun co ci => transformedFilter (pfilter co ci),
    biases1 := pBias }

/-- Member `ResidualBlock::LoadSEWeights`. -/
def resLoadSEWeights (st : ResidualBlockState) (w1 : Nat → Nat → ℚ)
    (b1 : Nat → ℚ) (w2 : Nat → Nat → ℚ) (b2 : Nat → ℚ) : ResidualBlockState :=
  { st with w1 := w1, b1 := b1, w2 := w2, b2 := b2 }

/-- Member `ResidualBlock::Eval` with explicit state threading: two
stored-weight convolutions around the skip connection selected by
`first_block_`, with the SE or plain epilogue. -/
def resBlockEvalS (first_block has_se : Bool) (squash : ℚ → ℚ)
    (C hw numFc1Out cin : Nat) (st : ResidualBlockState)
    (input input2 : Nat → Nat → ℚ) : (Nat → Nat → ℚ) × ResidualBlockState :=
  let mid : Nat → Nat → ℚ := fun c s =>
    reluQ (stConv st.transformedWeights0 st.biases0 cin input c s)
  let conv2 := stConv st.transformedWeights1 st.biases1 cin mid
  let skip := if first_block then input else input2
  (if has_se then
      seEval squash ⟨C, hw, numFc1Out, st.w1, st.b1, st.w2, st.b2⟩ false
        (fun _ => 0) conv2 skip
    else fun c s => reluQ (conv2 c s + skip c s), st)

/-- The owned device tensors of the cuDNN `ConvLayer`
(layers.h:103-104), stored as flat device buffers. -/
structure ConvLayerState where
  weights : Nat → ℚ
  biases : Nat → ℚ

/-- Member `ConvLayer::LoadWeights`. -/
def convLoadWeights (st : ConvLayerState) (pfilter pBias : Nat → ℚ) :
    ConvLayerState :=
  { st with weights := pfilter, biases := pBias }

/-- Member `ConvLayer::Eval` with explicit state threading: the spec
scopes the cuDNN evaluation path out as a vendor delegate, so the
primitive is an explicit parameter, applied to the stored weights and
biases. -/
def convEvalS
    (vendorConv : (Nat → ℚ) → (Nat → ℚ) → (Nat → Nat → ℚ) → Nat → Nat → ℚ)
    (st : ConvLayerState) (x : Nat → Nat → ℚ) :
    (Nat → Nat → ℚ) × ConvLayerState :=
  (vendorConv st.weights st.biases x, st)

/-- C7: for every layer class owning weights, once its `LoadWeights*`
entry points have run, the owned weight state — weights, biases,
Winograd-pre-transformed weights, SE tensors, transposed copies — is
never modified again: each `Eval` returns exactly the owned state it
was given (iterated evaluation included), and the weight transforms
(the Winograd filter transform, the SE transpose copies) are computed
by the load entry points themselves, once, not per `Eval` call. -/
theorem weights_immutable_after_load
    (f0 : FusedConvState) (pfilter : Nat → Nat → Nat → Nat → ℚ)
    (pBias : Nat → ℚ) (sw1 : Nat → Nat → ℚ) (sb1 : Nat → ℚ)
    (sw2 : Nat → Nat → ℚ) (sb2 : Nat → ℚ) (has_se : Bool) (squash : ℚ → ℚ)
    (C hw numFc1Out cin : Nat) (input skip : Nat → Nat → ℚ)
    (xs : List ((Nat → Nat → ℚ) × (Nat → Nat → ℚ)))
    (fc0 : FCState) (cpuWeight : Nat → Nat → ℚ) (cpuBias : Nat → ℚ)
    (use_relu use_tanh use_sigmoid use_bias : Bool) (tanhF sigmoidF : ℚ → ℚ)
    (xv : Nat → ℚ)
    (pm0 : PolicyMapState) (tbl : Nat → Int) (padded : Nat) (pin : Nat → ℚ)
    (se0 : SELayerState) (ew1 : Nat → Nat → ℚ) (eb1 : Nat → ℚ)
    (ew2 : Nat → Nat → ℚ) (eb2 : Nat → ℚ) (ebp : Nat → ℚ) (addPrev : Bool)
    (c10 : Conv1State) (cf : Nat → Nat → ℚ) (cb : Nat → ℚ) (useGemmEx : Bool)
    (r0 : ResidualBlockState) (pf0 pf1 : Nat → Nat → Nat → Nat → ℚ)
    (pb0 pb1 : Nat → ℚ) (rw1 : Nat → Nat → ℚ) (rb1 : Nat → ℚ)
    (rw2 : Nat → Nat → ℚ) (rb2 : Nat → ℚ) (first_block : Bool)
    (input2 : Nat → Nat → ℚ)
    (cv0 : ConvLayerState) (cvw cvb : Nat → ℚ)
    (vendorConv : (Nat → ℚ) → (Nat → ℚ) → (Nat → Nat → ℚ) → Nat → Nat → ℚ) :
    (fusedEval has_se squash C hw numFc1Out cin
        (fusedLoadSEWeights (fusedLoadWeights f0 pfilter pBias) sw1 sb1 sw2 sb2)
        input skip).2
      = fusedLoadSEWeights (fusedLoadWeights f0 pfilter pBias) sw1 sb1 sw2 sb2
    ∧ fusedEvalMany has_se squash C hw numFc1Out cin
        (fusedLoadSEWeights (fusedLoadWeights f0 pfilter pBias) sw1 sb1 sw2 sb2)
        xs
      = fusedLoadSEWeights (fusedLoadWeights f0 pfilter pBias) sw1 sb1 sw2 sb2
    ∧ (fusedLoadWeights f0 pfilter pBias).transformedWeights
      = (fun co ci => transformedFilter (pfilter co ci))
    ∧ (fcEvalS use_relu use_tanh use_sigmoid use_bias tanhF sigmoidF
        (fcLoadWeights fc0 cpuWeight cpuBias) cin xv).2
      = fcLoadWeights fc0 cpuWeight cpuBias
    ∧ (policyMapEvalS (policyMapLoadWeights pm0 tbl padded) pin).2
      = policyMapLoadWeights pm0 tbl padded
    ∧ (seEvalS squash C hw numFc1Out addPrev
        (seLoadWeights se0 ew1 eb1 ew2 eb2 ebp) input skip).2
      = seLoadWeights se0 ew1 eb1 ew2 eb2 ebp
    ∧ (seLoadWeights se0 ew1 eb1 ew2 eb2 ebp).w1t = (fun i j => ew1 j i)
    ∧ (conv1EvalS useGemmEx use_relu use_bias (conv1LoadWeights c10 cf cb)
        cin input).2
      = conv1LoadWeights c10 cf cb
    ∧ (resBlockEvalS first_block has_se squash C hw numFc1Out cin
        (resLoadSEWeights (resLoadWeights1 (resLoadWeights0 r0 pf0 pb0) pf1 pb1)
          rw1 rb1 rw2 rb2)
        input input2).2
      = resLoadSEWeights (resLoadWeights1 (resLoadWeights0 r0 pf0 pb0) pf1 pb1)
          rw1 rb1 rw2 rb2
    ∧ (resLoadWeights0 r0 pf0 pb0).transformedWeights0
      = (fun co ci => transformedFilter (pf0 co ci))
    ∧ (convEvalS vendorConv (convLoadWeights cv0 cvw cvb) input).2
      = convLoadWeights cv0 cvw cvb :=
  ⟨rfl,
   fusedEvalMany_id has_se squash C hw numFc1Out cin xs
     (fusedLoadSEWeights (fusedLoadWeights f0 pfilter pBias) sw1 sb1 sw2 sb2),
   rfl, rfl, rfl, rfl, rfl, rfl, rfl, rfl, rfl⟩

/-! ### Immutability of construction parameters (C8)

The header declares the derived classes' shape and flag members
`const` (`c_input_`, `filter_size_`, `use_relu_`, `use_bias_`,
`use_tanh_`, `use_sigmoid_`, `skip_add_`, `has_se_`, `se_k_`,
`use_gemm_ex_`, `first_block_`, `last_block_`); the `BaseLayer`
shape `C`, `H`, `W` and layout flag are set by its constructor; the
`SELayer` members `numFc1Out_` and `addPrevLayerBias_` are not `const`
but per the spec are supplied once at construction and immutable
thereafter. Operation bodies are absent from the provided sources;
modelled from the spec, every operation of every layer class — the
`LoadWeights*` entry points and `Eval` — touches only the owned weight
state, never the construction-time configuration. Each layer record
pairs its fixed configuration with its owned state, and each operation
is the C7 state transformer lifted to the record, with the feature
flags and shape the evaluation uses drawn from the configuration.
`PolicyMapLayer`'s `used_size_` is deliberately in the owned state, not
the configuration: the spec documents it as mutable bookkeeping. -/

/-- Construction-time configuration of `FusedWinogradConvSELayer`: the
inherited `BaseLayer` state plus its `const` members
(layers.h:238-244). -/
structure FusedConvConfig where
  base : BaseLayer
  c_input : Nat
  use_relu : Bool
  use_bias : Bool
  skip_add : Bool
  has_se : Bool
  se_k : Nat
  useGemmEx : Bool

/-- Record for `FusedWinogradConvSELayer`: fixed configuration plus
owned weight state. -/
structure FusedConvLayer where
  cfg : FusedConvConfig
  st : FusedConvState

/-- Member `GetC` on the full layer: reads the inherited base state. -/
def FusedConvLayer.GetC (l : FusedConvLayer) : Nat := l.cfg.base.GetC

/-- Member `GetH` on the full layer. -/
def FusedConvLayer.GetH (l : FusedConvLayer) : Nat := l.cfg.base.GetH

/-- Member `GetW` on the full layer. -/
def FusedConvLayer.GetW (l : FusedConvLayer) : Nat := l.cfg.base.GetW

/-- Member `LoadWeights` lifted to the layer record. -/
def layerLoadWeights (l : FusedConvLayer)
    (pfilter : Nat → Nat → Nat → Nat → ℚ) (pBias : Nat → ℚ) : FusedConvLayer :=
  { l with st := fusedLoadWeights l.st pfilter pBias }

/-- Member `LoadSEWeights` lifted to the layer record. -/
def layerLoadSEWeights (l : FusedConvLayer) (w1 : Nat → Nat → ℚ)
    (b1 : Nat → ℚ) (w2 : Nat → Nat → ℚ) (b2 : Nat → ℚ) : FusedConvLayer :=
  { l with st := fusedLoadSEWeights l.st w1 b1 w2 b2 }

/-- Member `Eval` lifted to the layer record: the `has_se_` flag, the
channel count and the input channel count come from the
configuration. -/
def layerEval (l : FusedConvLayer) (squash : ℚ → ℚ) (hw numFc1Out : Nat)
    (input skip : Nat → Nat → ℚ) : (Nat → Nat → ℚ) × FusedConvLayer :=
  ((fusedEval l.cfg.has_se squash l.cfg.base.C hw numFc1Out l.cfg.c_input
      l.st input skip).1,
   { l with st := (fusedEval l.cfg.has_se squash l.cfg.base.C hw numFc1Out
      l.cfg.c_input l.st input skip).2 })

/-- Construction-time configuration of `ResidualBlock`
(layers.h:318-323), including the block-position flags `first_block_`
and `last_block_`. -/
structure ResidualBlockConfig where
  base : BaseLayer
  has_se : Bool
  se_k : Nat
  useGemmEx : Bool
  c_input : Nat
  first_block : Bool
  last_block : Bool

/-- Record for `ResidualBlock`: fixed configuration plus owned weight
state. -/
structure ResidualBlockLayer where
  cfg : ResidualBlockConfig
  st : ResidualBlockState

/-- Member `ResidualBlock::LoadWeights0` lifted to the layer record. -/
def resLayerLoadWeights0 (l : ResidualBlockLayer)
    (pfilter : Nat → Nat → Nat → Nat → ℚ) (pBias : Nat → ℚ) :
    ResidualBlockLayer :=
  { l with st := resLoadWeights0 l.st pfilter pBias }

/-- Member `ResidualBlock::LoadWeights1` lifted to the layer record. -/
def resLayerLoadWeights1 (l : ResidualBlockLayer)
    (pfilter : Nat → Nat → Nat → Nat → ℚ) (pBias : Nat → ℚ) :
    ResidualBlockLayer :=
  { l with st := resLoadWeights1 l.st pfilter pBias }

/-- Member `ResidualBlock::LoadSEWeights` lifted to the layer record. -/
def resLayerLoadSEWeights (l : ResidualBlockLayer) (w1 : Nat → Nat → ℚ)
    (b1 : Nat → ℚ) (w2 : Nat → Nat → ℚ) (b2 : Nat → ℚ) : ResidualBlockLayer :=
  { l with st := resLoadSEWeights l.st w1 b1 w2 b2 }

/-- Member `ResidualBlock::Eval` lifted to the layer record: the
block-position flag `first_block_`, the `has_se_` flag and the shape
come from the configuration. -/
def resLayerEval (l : ResidualBlockLayer) (squash : ℚ → ℚ)
    (hw numFc1Out : Nat) (input input2 : Nat → Nat → ℚ) :
    (Nat → Nat → ℚ) × ResidualBlockLayer :=
  ((resBlockEvalS l.cfg.first_block l.cfg.has_se squash l.cfg.base.C hw
      numFc1Out l.cfg.c_input l.st input input2).1,
   { l with st := (resBlockEvalS l.cfg.first_block l.cfg.has_se squash
      l.cfg.base.C hw numFc1Out l.cfg.c_input l.st input input2).2 })

/-- Construction-time configuration of `FCLayer`: the inherited base
state plus the `const` selector flags (layers.h:152-155). -/
structure FCConfig where
  base : BaseLayer
  use_bias : Bool
  use_relu : Bool
  use_tanh : Bool
  use_sigmoid : Bool

/-- Record for `FCLayer`: fixed configuration plus owned weight
state. -/
structure FCLayerRec where
  cfg : FCConfig
  st : FCState

/-- Member `FCLayer::LoadWeights` lifted to the layer record. -/
def fcLayerLoadWeights (l : FCLayerRec) (cpuWeight : Nat → Nat → ℚ)
    (cpuBias : Nat → ℚ) : FCLayerRec :=
  { l with st := fcLoadWeights l.st cpuWeight cpuBias }

/-- Member `FCLayer::Eval` lifted to the layer record: the selector
flags come from the configuration. -/
def fcLayerEval (l : FCLayerRec) (tanhF sigmoidF : ℚ → ℚ) (cin : Nat)
    (x : Nat → ℚ) : (Nat → ℚ) × FCLayerRec :=
  ((fcEvalS l.cfg.use_relu l.cfg.use_tanh l.cfg.use_sigmoid l.cfg.use_bias
      tanhF sigmoidF l.st cin x).1,
   { l with st := (fcEvalS l.cfg.use_relu l.cfg.use_tanh l.cfg.use_sigmoid
      l.cfg.use_bias tanhF sigmoidF l.st cin x).2 })

/-- Construction-time configuration of `PolicyMapLayer`: only the
inherited base state (its `used_size_` is mutable bookkeeping, kept in
the owned state). -/
structure PolicyMapConfig where
  base : BaseLayer

/-- Record for `PolicyMapLayer`: fixed configuration plus owned
state. -/
structure PolicyMapLayerRec where
  cfg : PolicyMapConfig
  st : PolicyMapState

/-- Member `PolicyMapLayer::LoadWeights` lifted to the layer record. -/
def pmLayerLoadWeights (l : PolicyMapLayerRec) (cpuWeight : Nat → Int)
    (newUsedSize : Nat) : PolicyMapLayerRec :=
  { l with st := policyMapLoadWeights l.st cpuWeight newUsedSize }

/-- Member `PolicyMapLayer::Eval` lifted to the layer record. -/
def pmLayerEval (l : PolicyMapLayerRec) (input : Nat → ℚ) :
    (Nat → ℚ) × PolicyMapLayerRec :=
  ((policyMapEvalS l.st input).1, { l with st := (policyMapEvalS l.st input).2 })

/-- Construction-time configuration of `SELayer`: the inherited base
state plus `numFc1Out_` and the `addPrevLayerBias_` feature flag
(layers.h:208-209), which the spec fixes at construction. -/
structure SEConfig where
  base : BaseLayer
  numFc1Out : Nat
  addPrevLayerBias : Bool

/-- Record for `SELayer`: fixed configuration plus owned weight
state. -/
structure SELayerRec where
  cfg : SEConfig
  st : SELayerState

/-- Member `SELayer::LoadWeights` lifted to the layer record. -/
def seLayerLoadWeights (l : SELayerRec) (w1 : Nat → Nat → ℚ) (b1 : Nat → ℚ)
    (w2 : Nat → Nat → ℚ) (b2 : Nat → ℚ) (prevLayerBias : Nat → ℚ) :
    SELayerRec :=
  { l with st := seLoadWeights l.st w1 b1 w2 b2 prevLayerBias }

/-- Member `SELayer::Eval` lifted to the layer record: the channel
count, hidden size and bias flag come from the configuration. -/
def seLayerEval (l : SELayerRec) (squash : ℚ → ℚ) (hw : Nat)
    (input skip : Nat → Nat → ℚ) : (Nat → Nat → ℚ) × SELayerRec :=
  ((seEvalS squash l.cfg.base.C hw l.cfg.numFc1Out l.cfg.addPrevLayerBias
      l.st input skip).1,
   { l with st := (seEvalS squash l.cfg.base.C hw l.cfg.numFc1Out
      l.cfg.addPrevLayerBias l.st input skip).2 })

/-- Construction-time configuration of `Conv1Layer`: the inherited base
state plus its `const` members (layers.h:282-285). -/
structure Conv1Config where
  base : BaseLayer
  c_input : Nat
  use_relu : Bool
  use_bias : Bool
  useGemmEx : Bool

/-- Record for `Conv1Layer`: fixed configuration plus owned weight
state. -/
structure Conv1LayerRec where
  cfg : Conv1Config
  st : Conv1State

/-- Member `Conv1Layer::LoadWeights` lifted to the layer record. -/
def conv1LayerLoadWeights (l : Conv1LayerRec) (pfilter : Nat → Nat → ℚ)
    (pBias : Nat → ℚ) : Conv1LayerRec :=
  { l with st := conv1LoadWeights l.st pfilter pBias }

/-- Member `Conv1Layer::Eval` lifted to the layer record: the gemm path,
activation and bias flags and the input channel count come from the
configuration. -/
def conv1LayerEval (l : Conv1LayerRec) (x : Nat → Nat → ℚ) :
    (Nat → Nat → ℚ) × Conv1LayerRec :=
  ((conv1EvalS l.cfg.useGemmEx l.cfg.use_relu l.cfg.use_bias l.st
      l.cfg.c_input x).1,
   { l with st := (conv1EvalS l.cfg.useGemmEx l.cfg.use_relu l.cfg.use_bias
      l.st l.cfg.c_input x).2 })

/-- Construction-time configuration of the cuDNN `ConvLayer`: the
inherited base state plus its `const` members (layers.h:98-101). -/
structure ConvConfig where
  base : BaseLayer
  c_input : Nat
  filter_size : Nat
  use_relu : Bool
  use_bias : Bool

/-- Record for the cuDNN `ConvLayer`: fixed configuration plus owned
weight state. -/
structure ConvLayerRec where
  cfg : ConvConfig
  st : ConvLayerState

/-- Member `ConvLayer::LoadWeights` lifted to the layer record. -/
def convLayerLoadWeights (l : ConvLayerRec) (pfilter pBias : Nat → ℚ) :
    ConvLayerRec :=
  { l with st := convLoadWeights l.st pfilter pBias }

/-- Member `ConvLayer::Eval` lifted to the layer record (vendor
delegate, per the spec scoping). -/
def convLayerEval
    (vendorConv : (Nat → ℚ) → (Nat → ℚ) → (Nat → Nat → ℚ) → Nat → Nat → ℚ)
    (l : ConvLayerRec) (x : Nat → Nat → ℚ) : (Nat → Nat → ℚ) × ConvLayerRec :=
  ((convEvalS vendorConv l.st x).1,
   { l with st := (convEvalS vendorConv l.st x).2 })

/-- Record for `SoftMaxLayer`: it owns no weights, so its only state is
the inherited base configuration. -/
structure SoftMaxLayerRec where
  cfg : BaseLayer

/-- Member `SoftMaxLayer::Eval` (vendor delegate, per the spec
scoping). -/
def softMaxLayerEval (vendorSoftMax : (Nat → Nat → ℚ) → Nat → Nat → ℚ)
    (l : SoftMaxLayerRec) (x : Nat → Nat → ℚ) :
    (Nat → Nat → ℚ) × SoftMaxLayerRec :=
  (vendorSoftMax x, l)

/-- C8: for every layer class, no operation changes the construction
parameters: every `LoadWeights*` entry point and every `Eval` leaves
the whole configuration — output shape as reported by
`GetC`/`GetH`/`GetW`, input channel count, and every boolean feature
flag, the `ResidualBlock` block-position flags `first_block_` and
`last_block_` included — exactly as the constructor set it. -/
theorem construction_params_immutable
    (l : FusedConvLayer) (pfilter : Nat → Nat → Nat → Nat → ℚ)
    (pBias : Nat → ℚ) (sw1 : Nat → Nat → ℚ) (sb1 : Nat → ℚ)
    (sw2 : Nat → Nat → ℚ) (sb2 : Nat → ℚ) (squash : ℚ → ℚ)
    (hw numFc1Out cin : Nat) (input skip : Nat → Nat → ℚ)
    (r : ResidualBlockLayer) (pf0 pf1 : Nat → Nat → Nat → Nat → ℚ)
    (pb0 pb1 : Nat → ℚ) (rw1 : Nat → Nat → ℚ) (rb1 : Nat → ℚ)
    (rw2 : Nat → Nat → ℚ) (rb2 : Nat → ℚ) (input2 : Nat → Nat → ℚ)
    (fl : FCLayerRec) (w : Nat → Nat → ℚ) (bfc : Nat → ℚ)
    (tanhF sigmoidF : ℚ → ℚ) (xv : Nat → ℚ)
    (pl : PolicyMapLayerRec) (tbl : Nat → Int) (padded : Nat) (pin : Nat → ℚ)
    (sl : SELayerRec) (ew1 : Nat → Nat → ℚ) (eb1 : Nat → ℚ)
    (ew2 : Nat → Nat → ℚ) (eb2 : Nat → ℚ) (ebp : Nat → ℚ)
    (c1l : Conv1LayerRec) (cf : Nat → Nat → ℚ) (cb : Nat → ℚ)
    (cvl : ConvLayerRec) (cvw cvb : Nat → ℚ)
    (vendorConv : (Nat → ℚ) → (Nat → ℚ) → (Nat → Nat → ℚ) → Nat → Nat → ℚ)
    (sml : SoftMaxLayerRec) (vendorSoftMax : (Nat → Nat → ℚ) → Nat → Nat → ℚ) :
    (layerLoadWeights l pfilter pBias).cfg = l.cfg
    ∧ (layerLoadSEWeights l sw1 sb1 sw2 sb2).cfg = l.cfg
    ∧ (layerEval l squash hw numFc1Out input skip).2.cfg = l.cfg
    ∧ (layerLoadWeights l pfilter pBias).GetC = l.GetC
    ∧ (layerLoadSEWeights l sw1 sb1 sw2 sb2).GetH = l.GetH
    ∧ (layerEval l squash hw numFc1Out input skip).2.GetW = l.GetW
    ∧ (resLayerLoadWeights0 r pf0 pb0).cfg = r.cfg
    ∧ (resLayerLoadWeights1 r pf1 pb1).cfg = r.cfg
    ∧ (resLayerLoadSEWeights r rw1 rb1 rw2 rb2).cfg = r.cfg
    ∧ (resLayerEval r squash hw numFc1Out input input2).2.cfg = r.cfg
    ∧ (resLayerEval r squash hw numFc1Out input input2).2.cfg.first_block
      = r.cfg.first_block
    ∧ (resLayerEval r squash hw numFc1Out input input2).2.cfg.last_block
      = r.cfg.last_block
    ∧ (fcLayerLoadWeights fl w bfc).cfg = fl.cfg
    ∧ (fcLayerEval fl tanhF sigmoidF cin xv).2.cfg = fl.cfg
    ∧ (pmLayerLoadWeights pl tbl padded).cfg = pl.cfg
    ∧ (pmLayerEval pl pin).2.cfg = pl.cfg
    ∧ (seLayerLoadWeights sl ew1 eb1 ew2 eb2 ebp).cfg = sl.cfg
    ∧ (seLayerEval sl squash hw input skip).2.cfg = sl.cfg
    ∧ (conv1LayerLoadWeights c1l cf cb).cfg = c1l.cfg
    ∧ (conv1LayerEval c1l input).2.cfg = c1l.cfg
    ∧ (convLayerLoadWeights cvl cvw cvb).cfg = cvl.cfg
    ∧ (convLayerEval vendorConv cvl input).2.cfg = cvl.cfg
    ∧ (softMaxLayerEval vendorSoftMax sml input).2.cfg = sml.cfg :=
  ⟨rfl, rfl, rfl, rfl, rfl, rfl, rfl, rfl, rfl, rfl, rfl, rfl, rfl, rfl, rfl,
   rfl, rfl, rfl, rfl, rfl, rfl, rfl, rfl⟩

end LC0
